import Mathlib

/-!
Verification of the Reaktoro excerpt: shallow embedding of
`ReactionUtils.cpp` (reaction lookups, equilibrium constants, reaction
quotients, the `MineralMechanism` configuration-string parser),
`WaterThermoStateUtils.cpp` (water thermodynamic state from Helmholtz
derivatives) and `AqueousMixture.hpp` (species partitioning and mixture
state).  Machine doubles are modelled as exact rationals; the C++
exception mechanism is modelled with `Except`; out-of-bounds vector
accesses (undefined behaviour in C++) are modelled as a distinguished
error outcome.  Repository code that the excerpt only calls
(`StringUtils`, `Units`, the `AqueousMixture` constructor and state
evaluators) is modelled from the spec, as marked on each definition.
-/

namespace Reaktor

/-! ## String utilities (`StringUtils.hpp`, not part of the excerpt)

Modelled from the spec: the mechanism configuration string format is
"comma-separated key=value tokens" where a value and its unit are
separated by a space (for example `Ea=50 kJ/mol`), so `split(str, delims)`
splits `str` at every character that occurs in `delims`, discarding empty
words, exactly as needed for `split(mechanism, ",")` and
`split(option, "= ")` in `MineralMechanism`.
-/

/-- Split a list of characters at every character belonging to `delims`,
keeping empty words for the moment. -/
def splitChars (delims : List Char) : List Char → List (List Char)
  | [] => [[]]
  | c :: rest =>
    if c ∈ delims then [] :: splitChars delims rest
    else
      match splitChars delims rest with
      | [] => [[c]]
      | w :: ws => (c :: w) :: ws

/-- Modelled from the spec: `split(str, delims)` of `StringUtils.hpp`
(missing from the excerpt), splitting at any character of `delims` and
discarding empty words. -/
def split (str delims : String) : List String :=
  ((splitChars delims.toList str.toList).filter (fun w => ¬ w.isEmpty)).map
    (fun w => String.mk w)

/-- Natural power on rationals by explicit recursion (so that concrete
instances reduce inside the kernel). -/
def qnpow (a : ℚ) : ℕ → ℚ
  | 0 => 1
  | n + 1 => a * qnpow a n

/-- Value of a list of decimal digit characters. -/
def digitsVal (ds : List Char) : Nat :=
  ds.foldl (fun acc c => 10 * acc + (c.toNat - 48)) 0

/-- Modelled from the spec: the decidable core of `tofloat` of
`StringUtils.hpp` (missing from the excerpt): the sign, the value of the
integer part, the value of the fractional part and the number of
fractional digits of the decimal literal at the front of `s`. -/
def tofloatParts (s : String) : Bool × ℕ × ℕ × ℕ :=
  let cs := s.toList
  let neg : Bool := cs.headD ' ' == '-'
  let body := if neg || (cs.headD ' ' == '+') then cs.tail else cs
  let intPart := body.takeWhile Char.isDigit
  let rest := body.dropWhile Char.isDigit
  let fracPart : List Char :=
    if rest.headD ' ' == '.' then rest.tail.takeWhile Char.isDigit else []
  (neg, digitsVal intPart, digitsVal fracPart, fracPart.length)

/-- Modelled from the spec: `tofloat` of `StringUtils.hpp` (missing from
the excerpt), reading a decimal number (optional sign, integer part,
optional fractional part) as an exact rational; unparsable input yields
`0`, as `atof` does. -/
def tofloat (s : String) : ℚ :=
  let p := tofloatParts s
  let mag : ℚ := (p.2.1 : ℚ) + (p.2.2.1 : ℚ) / qnpow 10 p.2.2.2
  if p.1 then -mag else mag

/-- Does `needle` occur as a contiguous substring of `hay`? -/
def occursIn (needle hay : List Char) : Bool :=
  match hay with
  | [] => needle.isEmpty
  | _ :: t => needle.isPrefixOf hay || occursIn needle t

/-! ## Units (`Units.hpp`, not part of the excerpt)

Modelled from the spec: parsing "must validate units (rate constant
convertible to mol/(m²·s), activation energy to kJ/mol)"; the only unit
conversions the spec exercises are the identity ones, so the model knows
the canonical unit spellings together with their dimensions and scale
factors. -/

/-- Dimension tag of a recognised unit string; `none` for an unknown
unit. -/
def unitDim (u : String) : Option Nat :=
  if u = "mol/(m2*s)" then some 0
  else if u = "kJ/mol" then some 1
  else if u = "J/mol" then some 1
  else none

/-- Scale factor of a recognised unit relative to the canonical unit of
its dimension. -/
def unitFactor (u : String) : ℚ :=
  if u = "J/mol" then 1 / 1000 else 1

/-- Modelled from the spec: `units::convertible(u, v)` of `Units.hpp`
(missing from the excerpt) holds when both units are recognised and
measure the same dimension. -/
def convertible (u v : String) : Bool :=
  match unitDim u, unitDim v with
  | some a, some b => a = b
  | _, _ => false

/-- Modelled from the spec: `units::convert(x, u, v)` of `Units.hpp`
(missing from the excerpt) rescales `x` from unit `u` to unit `v`. -/
def convert (x : ℚ) (u v : String) : ℚ :=
  x * unitFactor u / unitFactor v

/-! ## `MineralMechanism` (`MineralMechanism.cpp`) -/

/-- Error outcomes of the mechanism parser.  `unknownOption`,
`missingUnit` and the two unit-check errors model the exceptions raised
by `unknownOptionError`, `missingUnitError`, `checkRateConstantUnit` and
`checkActivationEnergyUnit`; `outOfBoundsAccess` models the undefined
behaviour of indexing `words[1]` on a vector with fewer than two
elements. -/
inductive MechanismError where
  | unknownOption (option : String)
  | missingUnit (quantity : String)
  | badRateConstantUnit
  | badActivationEnergyUnit
  | outOfBoundsAccess (option : String)
  deriving DecidableEq, Repr

/-- The mineral mechanism record: rate constant `kappa` in mol/(m2*s),
activation energy `Ea` in kJ/mol, power-law exponents `p` and `q`, and
the raw catalyst tokens (the `MineralCatalyst` sub-parser is outside the
claims; the token is kept verbatim). -/
structure MineralMechanism where
  kappa : ℚ := 0
  Ea : ℚ := 0
  p : ℚ := 0
  q : ℚ := 0
  catalysts : List String := []
  deriving DecidableEq, Repr

/-- Integer power `a^v` as computed by `std::pow(a, v)` on exactly
representable inputs: defined for integer exponents (the only exponents
occurring in the excerpt; a non-integer exponent would give an
irrational, hence not exactly representable, result). -/
def qpow (a v : ℚ) : ℚ :=
  if v.den = 1 then
    if 0 ≤ v.num then qnpow a v.num.toNat else (qnpow a (-v.num).toNat)⁻¹
  else 0

/-- The value `10^v` computed by `std::pow(10.0, value)`. -/
def pow10 (v : ℚ) : ℚ :=
  qpow 10 v

/-- `MineralMechanism::setRateConstant`: checks that `unit` is
convertible to mol/(m2*s) and stores the converted value in `kappa`. -/
def setRateConstant (mm : MineralMechanism) (value : ℚ) (unit : String) :
    Except MechanismError MineralMechanism :=
  if convertible unit "mol/(m2*s)" then
    Except.ok { mm with kappa := convert value unit "mol/(m2*s)" }
  else Except.error MechanismError.badRateConstantUnit

/-- `MineralMechanism::setActivationEnergy`: checks that `unit` is
convertible to kJ/mol and stores the converted value in `Ea`. -/
def setActivationEnergy (mm : MineralMechanism) (value : ℚ) (unit : String) :
    Except MechanismError MineralMechanism :=
  if convertible unit "kJ/mol" then
    Except.ok { mm with Ea := convert value unit "kJ/mol" }
  else Except.error MechanismError.badActivationEnergyUnit

/-- Is the option token a catalyst token?  Mirrors the substring tests
`option.find("a[") != npos or ... "activity[" ... "p[" ... "pressure["`. -/
def isCatalystToken (option : String) : Bool :=
  occursIn "a[".toList option.toList ||
  occursIn "activity[".toList option.toList ||
  occursIn "p[".toList option.toList ||
  occursIn "pressure[".toList option.toList

/-- Decidable equality for parser outcomes. -/
instance : DecidableEq (Except MechanismError MineralMechanism)
  | Except.ok a, Except.ok b =>
    if h : a = b then Decidable.isTrue (congrArg Except.ok h)
    else Decidable.isFalse (fun he => h (Except.ok.inj he))
  | Except.error a, Except.error b =>
    if h : a = b then Decidable.isTrue (congrArg Except.error h)
    else Decidable.isFalse (fun he => h (Except.error.inj he))
  | Except.ok _, Except.error _ => Decidable.isFalse (fun he => Except.noConfusion he)
  | Except.error _, Except.ok _ => Decidable.isFalse (fun he => Except.noConfusion he)

/-- One iteration of the option loop in
`MineralMechanism::MineralMechanism(const std::string&)`: catalyst test,
`words = split(option, "= ")`, the empty/too-long guard, the read of
`words[1]` (out of bounds when only one word is present), the
missing-unit check for `logk`/`Ea`, and the dispatch on the quantity. -/
def parseOption (mm : MineralMechanism) (option : String) :
    Except MechanismError MineralMechanism :=
  if isCatalystToken option then
    Except.ok { mm with catalysts := mm.catalysts ++ [option] }
  else
    let words := split option "= "
    if words.isEmpty || words.length > 3 then
      Except.error (MechanismError.unknownOption option)
    else
      let quantity := words.headD ""
      match words.get? 1 with
      | none => Except.error (MechanismError.outOfBoundsAccess option)
      | some w1 =>
        let value := tofloat w1
        if (quantity = "logk" || quantity = "Ea") && words.length < 3 then
          Except.error (MechanismError.missingUnit quantity)
        else
          let unit := if words.length = 3 then words.getD 2 "" else ""
          if quantity = "logk" then setRateConstant mm (pow10 value) unit
          else if quantity = "Ea" then setActivationEnergy mm value unit
          else if quantity = "p" then Except.ok { mm with p := value }
          else if quantity = "q" then Except.ok { mm with q := value }
          else Except.error (MechanismError.unknownOption option)

/-- `MineralMechanism::MineralMechanism(const std::string&)`: split the
mechanism string at commas and process each option in order; the first
raised exception aborts the construction. -/
def parseMechanism (mechanism : String) : Except MechanismError MineralMechanism :=
  (split mechanism ",").foldlM parseOption {}

/-! ## `ReactionUtils.cpp`: reaction lookups and reaction quotient -/

/-- A species of the chemical system: its name and its chemical
potential as a function of temperature and pressure
(`Species::chemicalPotential()`). -/
structure Species where
  name : String
  chemicalPotential : ℚ → ℚ → ℚ

/-- The chemical system: the collection of all species
(`Multiphase::species()`). -/
structure Multiphase where
  species : List Species

/-- A reaction: the names of its participating species, their
stoichiometric coefficients, and their indices in the system's species
vector (`Reaction::species()`, `Reaction::stoichiometries()`,
`Reaction::indices()`). -/
structure Reaction where
  species : List String
  stoichiometries : List ℚ
  indices : List ℕ

/-- `numSpecies(reaction)`: the number of participating species. -/
def numSpeciesReaction (r : Reaction) : ℕ := r.species.length

/-- `indexSpecies(reaction, species)`: `std::find(begin, end, species) - begin`,
the position of the first occurrence, or the number of species when absent. -/
def indexSpecies (r : Reaction) (species : String) : ℕ :=
  r.species.findIdx (fun t => t == species)

/-- `containsSpecies(reaction, species)`: the index is strictly below
the species count. -/
def containsSpecies (r : Reaction) (species : String) : Bool :=
  decide (indexSpecies r species < numSpeciesReaction r)

/-- `stoichiometry(reaction, species)`: the coefficient at the found
index when the species participates, `0.0` otherwise. -/
def stoichiometry (r : Reaction) (species : String) : ℚ :=
  let index := indexSpecies r species
  if index < numSpeciesReaction r then r.stoichiometries.getD index 0 else 0

/-- A scalar together with its gradient with respect to the species
amounts (`ScalarResult`). -/
structure ScalarResult where
  val : ℚ
  grad : List ℚ

/-- A vector quantity together with its Jacobian rows
(`VectorResult`): `grad` row `i` holds the derivatives of component `i`. -/
structure VectorResult where
  val : List ℚ
  grad : List (List ℚ)

/-- The all-zero vector `zeros(n)`. -/
def vecZeros (n : ℕ) : List ℚ := List.replicate n 0

/-- Componentwise vector addition (Eigen `+=` on equally sized vectors). -/
def vecAdd (u v : List ℚ) : List ℚ := List.zipWith (fun a b => a + b) u v

/-- Scalar-times-vector (Eigen scalar product). -/
def vecScale (c : ℚ) (v : List ℚ) : List ℚ := v.map (fun x => c * x)

/-- `reactionQuotient(reaction, a)`: first loop accumulates
`Q.val *= pow(a[indices[i]], v[i])`, second loop accumulates
`Q.grad += Q.val * v[i]/a[i] * a.grad.row(indices[i])`. -/
def reactionQuotient (r : Reaction) (a : VectorResult) : ScalarResult :=
  let size := a.val.length
  let vi := fun i => r.stoichiometries.getD i 0
  let ai := fun i => a.val.getD (r.indices.getD i 0) 0
  let rowi := fun i => a.grad.getD (r.indices.getD i 0) (vecZeros size)
  let qval := (List.range (numSpeciesReaction r)).foldl
    (fun acc i => acc * qpow (ai i) (vi i)) 1
  let qgrad := (List.range (numSpeciesReaction r)).foldl
    (fun g i => vecAdd g (vecScale (qval * vi i / ai i) (rowi i))) (vecZeros size)
  ⟨qval, qgrad⟩

/-- The concrete reaction of the spec example: stoichiometry
A: -1, B: -1, C: +1, species at system indices 0, 1, 2. -/
def rxnABC : Reaction := ⟨["A", "B", "C"], [-1, -1, 1], [0, 1, 2]⟩

/-- The concrete activities of the spec example: A: 2, B: 3, C: 1, with
the identity matrix as activity Jacobian. -/
def actABC : VectorResult := ⟨[2, 3, 1], [[1, 0, 0], [0, 1, 0], [0, 0, 1]]⟩

/-- A concrete two-species reaction for the lookup witness. -/
def rxnAB : Reaction := ⟨["A", "B"], [1, -1], [0, 1]⟩

/-! ## `equilibriumConstant` (`ReactionUtils.cpp`) -/

/-- Modelled from the spec: the universal gas constant of
`Constants.hpp` (not part of the excerpt), in J/(mol*K). -/
def universalGasConstant : ℚ := 8.3144621

/-- Placeholder species used as the (never legitimately reached)
out-of-range default of the system species vector. -/
def speciesZero : Species := ⟨"", fun _ _ => 0⟩

/-- The zero chemical-potential function, the out-of-range default of
the collected `mu` vector. -/
def muZero : ℚ → ℚ → ℚ := fun _ _ => 0

/-- `equilibriumConstant(multiphase, reaction)`: collects the chemical
potential functions of the participating species (`species[i]` for
`i : reaction.indices()`) and returns the closure
`(T, P) ↦ exp(-Σ stoichiometries[i]*mu[i](T,P) / (R*T))`.  The real
exponential `std::exp` is passed in as the function `expF`, mirroring
its role as an external primitive. -/
def equilibriumConstant (expF : ℚ → ℚ) (multiphase : Multiphase) (r : Reaction) :
    ℚ → ℚ → ℚ :=
  let stoichiometries := r.stoichiometries
  let num_species := numSpeciesReaction r
  let R := universalGasConstant
  let mu := r.indices.map
    (fun i => (multiphase.species.getD i speciesZero).chemicalPotential)
  fun T P =>
    expF (-(((List.range num_species).map
      (fun i => stoichiometries.getD i 0 * (mu.getD i muZero) T P)).sum) / (R * T))

/-- The spec's words for the equilibrium constant:
`K(T,P) = exp(−Σ νᵢ μᵢ(T,P) / (R·T))` where the `μᵢ` are the
chemical-potential functions of the reaction's participating species
taken from the system. -/
def equilibriumConstantSpec (expF : ℚ → ℚ) (multiphase : Multiphase) (r : Reaction)
    (T P : ℚ) : ℚ :=
  expF (-(((List.range (numSpeciesReaction r)).map
    (fun i => r.stoichiometries.getD i 0 *
      (multiphase.species.getD (r.indices.getD i 0) speciesZero).chemicalPotential T P)).sum) /
    (universalGasConstant * T))

/-- A concrete exponential stand-in for the equilibrium-constant
witness. -/
def expId : ℚ → ℚ := fun x => x

/-- A concrete two-species system for the equilibrium-constant witness. -/
def mpW : Multiphase := ⟨[⟨"H2O", fun T P => T + P⟩, ⟨"H+", fun T P => T * P⟩]⟩

/-- A concrete reaction over `mpW` for the equilibrium-constant witness. -/
def rxnW : Reaction := ⟨["H2O", "H+"], [1, -1], [0, 1]⟩

end Reaktor

namespace Reaktoro

/-! ## `WaterThermoStateUtils.cpp` (`waterThermoState`)

The `ThermoScalar` quantities are modelled by their values as exact
rationals; every formula below transcribes one assignment of the C++
function body. -/

/-- The Helmholtz free energy of water and its partial derivatives with
respect to temperature (`T`) and density (`D`)
(`WaterHelmholtzState.hpp`). -/
structure WaterHelmholtzState where
  helmholtz : ℚ
  helmholtzT : ℚ
  helmholtzD : ℚ
  helmholtzTT : ℚ
  helmholtzTD : ℚ
  helmholtzDD : ℚ
  helmholtzTTT : ℚ
  helmholtzTTD : ℚ
  helmholtzTDD : ℚ
  helmholtzDDD : ℚ

/-- The thermodynamic state of water (`WaterThermoState.hpp`). -/
structure WaterThermoState where
  temperature : ℚ
  volume : ℚ
  entropy : ℚ
  helmholtz : ℚ
  internal_energy : ℚ
  enthalpy : ℚ
  gibbs : ℚ
  cv : ℚ
  cp : ℚ
  density : ℚ
  densityT : ℚ
  densityP : ℚ
  densityTT : ℚ
  densityTP : ℚ
  densityPP : ℚ
  pressure : ℚ
  pressureD : ℚ
  pressureT : ℚ
  pressureDD : ℚ
  pressureTD : ℚ
  pressureTT : ℚ

/-- `waterThermoState(T, P, D, wh)`: assembles the thermodynamic state
of water from the Helmholtz derivatives, assignment by assignment as in
the C++ body. -/
def waterThermoState (T P D : ℚ) (wh : WaterHelmholtzState) : WaterThermoState :=
  let pressureD := 2*D*wh.helmholtzD + D*D*wh.helmholtzDD
  let pressureT := D*D*wh.helmholtzTD
  let pressureDD := 2*wh.helmholtzD + 4*D*wh.helmholtzDD + D*D*wh.helmholtzDDD
  let pressureTD := 2*D*wh.helmholtzTD + D*D*wh.helmholtzTDD
  let pressureTT := D*D*wh.helmholtzTTD
  let densityT := -pressureT/pressureD
  let densityP := 1/pressureD
  let densityTT := -densityT*densityP*(densityT*pressureDD + 2*pressureTD + pressureTT/densityT)
  let densityTP := -densityP*densityP*(densityT*pressureDD + pressureTD)
  let densityPP := -densityP*densityP*densityP*pressureDD
  let volume := 1/D
  let entropy := -wh.helmholtzT
  let helmholtz := wh.helmholtz
  let internal_energy := helmholtz + T * entropy
  let enthalpy := internal_energy + P/D
  let gibbs := enthalpy - T * entropy
  let cv := -T * wh.helmholtzTT
  let cp := cv + T/(D*D)*pressureT*pressureT/pressureD
  { temperature := T
    volume := volume
    entropy := entropy
    helmholtz := helmholtz
    internal_energy := internal_energy
    enthalpy := enthalpy
    gibbs := gibbs
    cv := cv
    cp := cp
    density := D
    densityT := densityT
    densityP := densityP
    densityTT := densityTT
    densityTP := densityTP
    densityPP := densityPP
    pressure := P
    pressureD := pressureD
    pressureT := pressureT
    pressureDD := pressureDD
    pressureTD := pressureTD
    pressureTT := pressureTT }

/-! ## `AqueousMixture.hpp` -/

/-- An aqueous species: its name, its electrical charge, and its
dissociation into ions (ion name with stoichiometric coefficient), as
provided by `AqueousSpecies.hpp`. -/
structure AqueousSpecies where
  name : String
  charge : ℚ
  dissociation : List (String × ℚ)

/-- The placeholder aqueous species used as out-of-range default. -/
def aqueousSpeciesZero : AqueousSpecies := ⟨"", 0, []⟩

/-- An aqueous mixture together with the index sets built by its
constructor (the private fields of `AqueousMixture.hpp`; the species
list itself comes from the `GeneralMixture` base). -/
structure AqueousMixture where
  species : List AqueousSpecies
  idx_water : ℕ
  idx_neutral_species : List ℕ
  idx_charged_species : List ℕ
  idx_cations : List ℕ
  idx_anions : List ℕ
  dissociation_matrix : List (List ℚ)

/-- Modelled from the spec: the `AqueousMixture` constructor
(`AqueousMixture.cpp` is not part of the excerpt) "classifies each
species at construction time into neutral vs. charged, and charged into
cations/anions by sign of charge; builds a dissociation matrix mapping
each aqueous complex to the ions produced by its dissociation
(stoichiometric coefficients)". -/
def mkAqueousMixture (species : List AqueousSpecies) : AqueousMixture :=
  let n := species.length
  let chargeOf := fun i => (species.getD i aqueousSpeciesZero).charge
  let idxNeutral := (List.range n).filter (fun i => decide (chargeOf i = 0))
  let idxCharged := (List.range n).filter (fun i => decide (chargeOf i ≠ 0))
  { species := species
    idx_water := species.findIdx (fun sp => sp.name == "H2O(l)")
    idx_neutral_species := idxNeutral
    idx_charged_species := idxCharged
    idx_cations := (List.range n).filter (fun i => decide (0 < chargeOf i))
    idx_anions := (List.range n).filter (fun i => decide (chargeOf i < 0))
    dissociation_matrix := idxNeutral.map (fun i =>
      idxCharged.map (fun j =>
        ((species.getD i aqueousSpeciesZero).dissociation.lookup
          (species.getD j aqueousSpeciesZero).name).getD 0)) }

/-- `AqueousMixture::numNeutralSpecies()`. -/
def numNeutralSpecies (mix : AqueousMixture) : ℕ := mix.idx_neutral_species.length

/-- `AqueousMixture::numChargedSpecies()`. -/
def numChargedSpecies (mix : AqueousMixture) : ℕ := mix.idx_charged_species.length

/-- The number of cations, `indicesCations().size()`. -/
def numCations (mix : AqueousMixture) : ℕ := mix.idx_cations.length

/-- The number of anions, `indicesAnions().size()`. -/
def numAnions (mix : AqueousMixture) : ℕ := mix.idx_anions.length

/-! ## Mixture state (`AqueousMixture::state` and helpers)

The implementations (`AqueousMixture.cpp`) are not part of the excerpt;
they are modelled from the spec, §4.2: molalities from the water mass,
stoichiometric molalities through the dissociation matrix, ionic
strengths `0.5·Σ zᵢ²·mᵢ`, all with exact derivative propagation. -/

/-- A scalar quantity and its partial derivatives with respect to the
species amounts (`ChemicalScalar`). -/
structure ChemicalScalarQ where
  val : ℚ
  ddn : List ℚ

/-- A vector quantity and its partial derivative rows with respect to
the species amounts (`ChemicalVector`). -/
structure ChemicalVectorQ where
  val : List ℚ
  ddn : List (List ℚ)

/-- The state of an aqueous mixture (`AqueousMixtureState`): molalities
`m`, stoichiometric molalities `ms`, effective and stoichiometric ionic
strengths `Ie` and `Is`, together with temperature and pressure. -/
structure AqueousMixtureState where
  T : ℚ
  P : ℚ
  Ie : ChemicalScalarQ
  Is : ChemicalScalarQ
  m : ChemicalVectorQ
  ms : ChemicalVectorQ

/-- Modelled from the spec: the molar mass of water in kg/mol, the
reference mass for molality. -/
def waterMolarMass : ℚ := 180153 / 10000000

/-- Modelled from the spec: `molalities(n)` is the "per-species
moles-to-molality conversion using the water species' mass as
reference", with its exact Jacobian. -/
def molalities (mix : AqueousMixture) (n : List ℚ) : ChemicalVectorQ :=
  let nw := n.getD mix.idx_water 0
  let kg := nw * waterMolarMass
  { val := n.map (fun ni => ni / kg)
    ddn := (List.range n.length).map (fun i => (List.range n.length).map (fun j =>
      (if j = i then 1 / kg else 0) -
        (if j = mix.idx_water then n.getD i 0 / (kg * nw) else 0))) }

/-- Modelled from the spec: `stoichiometricMolalities(m)` "maps complex
molalities through the dissociation matrix to obtain effective ion
molalities": the molality of each charged species plus the dissociation
contributions of the neutral complexes. -/
def stoichiometricMolalities (mix : AqueousMixture) (m : ChemicalVectorQ) : ChemicalVectorQ :=
  let nc := mix.idx_charged_species.length
  let nn := mix.idx_neutral_species.length
  let nu := fun i j => (mix.dissociation_matrix.getD i []).getD j 0
  { val := (List.range nc).map (fun j =>
      m.val.getD (mix.idx_charged_species.getD j 0) 0 +
        ((List.range nn).map (fun i =>
          nu i j * m.val.getD (mix.idx_neutral_species.getD i 0) 0)).sum)
    ddn := (List.range nc).map (fun j =>
      (List.range nn).foldl (fun acc i =>
        Reaktor.vecAdd acc (Reaktor.vecScale (nu i j)
          (m.ddn.getD (mix.idx_neutral_species.getD i 0) (Reaktor.vecZeros m.val.length))))
        (m.ddn.getD (mix.idx_charged_species.getD j 0) (Reaktor.vecZeros m.val.length))) }

/-- Modelled from the spec: `effectiveIonicStrength(m) = 0.5·Σ zᵢ²·mᵢ`
over all species, with derivative propagation. -/
def effectiveIonicStrength (mix : AqueousMixture) (m : ChemicalVectorQ) : ChemicalScalarQ :=
  let z := fun i => (mix.species.getD i aqueousSpeciesZero).charge
  { val := 1 / 2 * ((List.range mix.species.length).map
      (fun i => z i * z i * m.val.getD i 0)).sum
    ddn := Reaktor.vecScale (1 / 2) ((List.range mix.species.length).foldl
      (fun acc i => Reaktor.vecAdd acc (Reaktor.vecScale (z i * z i)
        (m.ddn.getD i (Reaktor.vecZeros m.val.length))))
      (Reaktor.vecZeros m.val.length)) }

/-- Modelled from the spec: `stoichiometricIonicStrength(ms) =
0.5·Σ zⱼ²·msⱼ` over the charged species, with derivative propagation. -/
def stoichiometricIonicStrength (mix : AqueousMixture) (ms : ChemicalVectorQ) : ChemicalScalarQ :=
  let zc := fun j => (mix.species.getD (mix.idx_charged_species.getD j 0)
    aqueousSpeciesZero).charge
  { val := 1 / 2 * ((List.range mix.idx_charged_species.length).map
      (fun j => zc j * zc j * ms.val.getD j 0)).sum
    ddn := Reaktor.vecScale (1 / 2) ((List.range mix.idx_charged_species.length).foldl
      (fun acc j => Reaktor.vecAdd acc (Reaktor.vecScale (zc j * zc j)
        (ms.ddn.getD j (Reaktor.vecZeros ms.val.length))))
      (Reaktor.vecZeros ms.val.length)) }

/-- Modelled from the spec: `AqueousMixture::state(T, P, n)` "aggregates
the above into one state snapshot". -/
def state (mix : AqueousMixture) (T P : ℚ) (n : List ℚ) : AqueousMixtureState :=
  let m := molalities mix n
  let ms := stoichiometricMolalities mix m
  { T := T
    P := P
    Ie := effectiveIonicStrength mix m
    Is := stoichiometricIonicStrength mix ms
    m := m
    ms := ms }

/-- A concrete aqueous mixture (water, a cation and an anion) for the
witnesses. -/
def mixW : AqueousMixture :=
  mkAqueousMixture [⟨"H2O(l)", 0, []⟩, ⟨"Na+", 1, []⟩, ⟨"Cl-", -1, []⟩]

end Reaktoro

namespace Reaktor

/-! ## Helper lemmas -/

/-- Evaluation rule for `tofloat` in terms of its decidable core. -/
theorem tofloat_eval (s : String) (neg : Bool) (ip fp fl : ℕ)
    (h : tofloatParts s = (neg, ip, fp, fl)) :
    tofloat s = if neg then -((ip : ℚ) + (fp : ℚ) / qnpow 10 fl)
      else ((ip : ℚ) + (fp : ℚ) / qnpow 10 fl) := by
  rw [tofloat, h]

/-- On a list not containing `s`, `findIdx (· == s)` returns the length. -/
theorem findIdx_beq_of_not_mem (s : String) :
    ∀ l : List String, s ∉ l → l.findIdx (fun t => t == s) = l.length := by
  intro l
  induction l with
  | nil => intro _; rfl
  | cons a t ih =>
    intro hs
    have ha : (a == s) = false := by
      simp only [beq_eq_false_iff_ne]
      intro h
      exact hs (h ▸ List.mem_cons_self a t)
    simp [List.findIdx_cons, ha, ih (fun h => hs (List.mem_cons_of_mem a h))]

/-- On a list containing `s`, `findIdx (· == s)` is a valid position
holding `s`. -/
theorem findIdx_beq_of_mem (s : String) :
    ∀ l : List String, s ∈ l →
      l.findIdx (fun t => t == s) < l.length ∧
      l.getD (l.findIdx (fun t => t == s)) "" = s := by
  intro l
  induction l with
  | nil => intro h; cases h
  | cons a t ih =>
    intro hs
    by_cases hq : a = s
    · have ha : (a == s) = true := by simp [hq]
      constructor
      · simp [List.findIdx_cons, ha]
      · simp [List.findIdx_cons, ha, hq]
    · have ha : (a == s) = false := by simp [hq]
      have hst : s ∈ t := by
        rcases List.mem_cons.mp hs with h | h
        · exact absurd h.symm hq
        · exact h
      rcases ih hst with ⟨h1, h2⟩
      constructor
      · simpa [List.findIdx_cons, ha, Nat.succ_lt_succ_iff] using h1
      · simpa [List.findIdx_cons, ha] using h2

/-- Folding multiplication equals the product of the mapped list. -/
theorem foldl_mul_eq_prod (f : ℕ → ℚ) :
    ∀ (l : List ℕ) (c : ℚ), l.foldl (fun acc i => acc * f i) c = c * (l.map f).prod := by
  intro l
  induction l with
  | nil => intro c; simp
  | cons a t ih => intro c; simp [ih, mul_assoc]

/-- Lengths: componentwise addition of equally sized vectors keeps the
size. -/
theorem vecAdd_length (u v : List ℚ) : (vecAdd u v).length = min u.length v.length := by
  simp [vecAdd]

/-- Lengths: scaling keeps the size. -/
theorem vecScale_length (c : ℚ) (v : List ℚ) : (vecScale c v).length = v.length := by
  simp [vecScale]

/-- Component of a componentwise sum. -/
theorem vecAdd_getD (j : ℕ) :
    ∀ u v : List ℚ, j < u.length → j < v.length →
      (vecAdd u v).getD j 0 = u.getD j 0 + v.getD j 0 := by
  induction j with
  | zero =>
    intro u v hu hv
    cases u with
    | nil => cases hu
    | cons a u2 =>
      cases v with
      | nil => cases hv
      | cons b v2 => simp [vecAdd]
  | succ n ih =>
    intro u v hu hv
    cases u with
    | nil => cases hu
    | cons a u2 =>
      cases v with
      | nil => cases hv
      | cons b v2 =>
        have := ih u2 v2 (Nat.lt_of_succ_lt_succ hu) (Nat.lt_of_succ_lt_succ hv)
        simpa [vecAdd] using this

/-- Component of a scaled vector. -/
theorem vecScale_getD (c : ℚ) (j : ℕ) :
    ∀ v : List ℚ, j < v.length → (vecScale c v).getD j 0 = c * v.getD j 0 := by
  induction j with
  | zero =>
    intro v hv
    cases v with
    | nil => cases hv
    | cons b v2 => simp [vecScale]
  | succ n ih =>
    intro v hv
    cases v with
    | nil => cases hv
    | cons b v2 =>
      have := ih v2 (Nat.lt_of_succ_lt_succ hv)
      simpa [vecScale] using this

/-- The gradient accumulation loop keeps the vector size. -/
theorem foldl_vecAdd_length (c : ℕ → ℚ) (w : ℕ → List ℚ) (size : ℕ) :
    ∀ (l : List ℕ) (z : List ℚ), z.length = size → (∀ i ∈ l, (w i).length = size) →
      (l.foldl (fun g i => vecAdd g (vecScale (c i) (w i))) z).length = size := by
  intro l
  induction l with
  | nil => intro z hz _; simpa using hz
  | cons a t ih =>
    intro z hz hw
    have hstep : (vecAdd z (vecScale (c a) (w a))).length = size := by
      rw [vecAdd_length, vecScale_length, hz, hw a (List.mem_cons_self a t)]
      simp
    exact ih _ hstep (fun i hi => hw i (List.mem_cons_of_mem a hi))

/-- Component `j` of the gradient accumulation loop: the starting
component plus the sum of the contributions. -/
theorem foldl_vecAdd_getD (c : ℕ → ℚ) (w : ℕ → List ℚ) (size j : ℕ) (hj : j < size) :
    ∀ (l : List ℕ) (z : List ℚ), z.length = size → (∀ i ∈ l, (w i).length = size) →
      (l.foldl (fun g i => vecAdd g (vecScale (c i) (w i))) z).getD j 0 =
        z.getD j 0 + (l.map (fun i => c i * (w i).getD j 0)).sum := by
  intro l
  induction l with
  | nil => intro z hz _; simp
  | cons a t ih =>
    intro z hz hw
    have hwa : (w a).length = size := hw a (List.mem_cons_self a t)
    have hstep : (vecAdd z (vecScale (c a) (w a))).length = size := by
      rw [vecAdd_length, vecScale_length, hz, hwa]
      simp
    have h1 := ih (vecAdd z (vecScale (c a) (w a))) hstep
      (fun i hi => hw i (List.mem_cons_of_mem a hi))
    have h2 : (vecAdd z (vecScale (c a) (w a))).getD j 0 =
        z.getD j 0 + c a * (w a).getD j 0 := by
      rw [vecAdd_getD j z _ (hz ▸ hj) (by rw [vecScale_length, hwa]; exact hj),
        vecScale_getD (c a) j (w a) (hwa ▸ hj)]
    simp only [List.foldl_cons, List.map_cons, List.sum_cons]
    rw [h1, h2, add_assoc]

/-- Component of the zero vector is zero. -/
theorem vecZeros_getD (n j : ℕ) : (vecZeros n).getD j 0 = 0 := by
  induction n generalizing j with
  | zero => simp [vecZeros]
  | succ m ih =>
    cases j with
    | zero => simp [vecZeros, List.replicate_succ]
    | succ k => simp [vecZeros, List.replicate_succ, ih k]

/-- A row fetched from a Jacobian whose rows all have length `size`
(with the zero vector as out-of-range default) has length `size`. -/
theorem getD_row_length (g : List (List ℚ)) (size idx : ℕ)
    (hrows : ∀ row ∈ g, row.length = size) :
    (g.getD idx (vecZeros size)).length = size := by
  rcases Nat.lt_or_ge idx g.length with h | h
  · rw [List.getD_eq_getElem?_getD, List.getElem?_eq_getElem h, Option.getD_some]
    exact hrows _ (List.getElem_mem h)
  · rw [List.getD_eq_getElem?_getD, List.getElem?_eq_none h, Option.getD_none]
    simp [vecZeros]

/-- Getting from a mapped list with an in-range index applies the
function to the gotten element. -/
theorem getD_map_fn {α β : Type} [Inhabited α] (g : α → β) (l : List α) (i : ℕ)
    (h : i < l.length) (d : β) (d2 : α) :
    (l.map g).getD i d = g (l.getD i d2) := by
  rw [List.getD_eq_getElem?_getD, List.getD_eq_getElem?_getD, List.getElem?_map,
    List.getElem?_eq_getElem h]
  simp

/-! ## Claim theorems for `ReactionUtils.cpp` and `MineralMechanism.cpp` -/

/-- C1 (counterexample): parsing the exact mechanism string
`"logk=-6 Ea=50 kJ/mol p=1 q=2"` of the claim does NOT succeed: the
string has no commas, so the whole of it is one option token, its
split at `'='`/`' '` has nine words, and the guard raises the
unknown-option error; the constructor never produces the claimed
record. -/
theorem mineralMechanism_claim_string_fails :
    parseMechanism "logk=-6 Ea=50 kJ/mol p=1 q=2" =
      Except.error (MechanismError.unknownOption "logk=-6 Ea=50 kJ/mol p=1 q=2") := by
  decide

/-- C1 (amended): with the options comma-separated and the rate-constant
unit supplied, `"logk=-6 mol/(m2*s),Ea=50 kJ/mol,p=1,q=2"` parses
successfully to rate constant `kappa = 10^-6` mol/(m2*s), activation
energy `Ea = 50` kJ/mol, `p = 1` and `q = 2`. -/
theorem mineralMechanism_parse_ok :
    parseMechanism "logk=-6 mol/(m2*s),Ea=50 kJ/mol,p=1,q=2" =
      Except.ok { kappa := 1 / 1000000, Ea := 50, p := 1, q := 2, catalysts := [] } := by
  have h6 : tofloat "-6" = -6 := by
    rw [tofloat_eval "-6" true 6 0 0 (by decide)]
    norm_num [qnpow]
  have h50 : tofloat "50" = 50 := by
    rw [tofloat_eval "50" false 50 0 0 (by decide)]
    norm_num [qnpow]
  have h1 : tofloat "1" = 1 := by
    rw [tofloat_eval "1" false 1 0 0 (by decide)]
    norm_num [qnpow]
  have h2 : tofloat "2" = 2 := by
    rw [tofloat_eval "2" false 2 0 0 (by decide)]
    norm_num [qnpow]
  rw [parseMechanism,
    show split "logk=-6 mol/(m2*s),Ea=50 kJ/mol,p=1,q=2" "," =
      ["logk=-6 mol/(m2*s)", "Ea=50 kJ/mol", "p=1", "q=2"] from by decide]
  simp only [List.foldlM, bind, Except.bind]
  simp only [parseOption,
    show isCatalystToken "logk=-6 mol/(m2*s)" = false from by decide,
    show isCatalystToken "Ea=50 kJ/mol" = false from by decide,
    show isCatalystToken "p=1" = false from by decide,
    show isCatalystToken "q=2" = false from by decide,
    show split "logk=-6 mol/(m2*s)" "= " = ["logk", "-6", "mol/(m2*s)"] from by decide,
    show split "Ea=50 kJ/mol" "= " = ["Ea", "50", "kJ/mol"] from by decide,
    show split "p=1" "= " = ["p", "1"] from by decide,
    show split "q=2" "= " = ["q", "2"] from by decide]
  simp only [List.isEmpty, List.length, List.headD, List.get?, List.getD, h6, h50, h1, h2,
    setRateConstant, setActivationEnergy, convertible, unitDim, unitFactor, convert,
    pow10, qpow]
  simp
  norm_num [qnpow]
  rfl

/-- C6: a `logk` or `Ea` option token with no unit word raises the
missing-unit error naming the quantity, and `setRateConstant` /
`setActivationEnergy` reject units not convertible to mol/(m2*s) /
kJ/mol with the corresponding descriptive error. -/
theorem mineralMechanism_error_handling (mm : MineralMechanism)
    (opt v q u : String) (value : ℚ) :
    ((q = "logk" ∨ q = "Ea") → isCatalystToken opt = false → split opt "= " = [q, v] →
      parseOption mm opt = Except.error (MechanismError.missingUnit q))
    ∧ (convertible u "mol/(m2*s)" = false →
      setRateConstant mm value u = Except.error MechanismError.badRateConstantUnit)
    ∧ (convertible u "kJ/mol" = false →
      setActivationEnergy mm value u = Except.error MechanismError.badActivationEnergyUnit) := by
  refine ⟨?_, ?_, ?_⟩
  · intro hq hcat hsplit
    rcases hq with rfl | rfl
    · simp [parseOption, hcat, hsplit]
    · simp [parseOption, hcat, hsplit]
  · intro hu
    simp [setRateConstant, hu]
  · intro hu
    simp [setActivationEnergy, hu]

/-- Witness for C6: the token `"Ea=50"` is rejected with the
missing-unit error for `Ea`; the energy unit J/mol is rejected as a rate
constant unit, and the rate unit mol/(m2*s) is rejected as an
activation-energy unit. -/
theorem mineralMechanism_error_handling_witness :
    parseOption {} "Ea=50" = Except.error (MechanismError.missingUnit "Ea")
    ∧ setRateConstant {} 1 "J/mol" = Except.error MechanismError.badRateConstantUnit
    ∧ setActivationEnergy {} 1 "mol/(m2*s)" =
      Except.error MechanismError.badActivationEnergyUnit :=
  ⟨(mineralMechanism_error_handling {} "Ea=50" "50" "Ea" "" 0).1 (Or.inr rfl)
      (by decide) (by decide),
   (mineralMechanism_error_handling {} "" "" "" "J/mol" 1).2.1 (by decide),
   (mineralMechanism_error_handling {} "" "" "" "mol/(m2*s)" 1).2.2 (by decide)⟩

/-- C10: a non-catalyst option token whose split has exactly one word
(such as `"foo"`) passes the guard (which rejects only empty tokens and
tokens of more than three words) and then reads `words[1]` out of
bounds; in the embedding this is the distinguished out-of-bounds
outcome, both for `parseOption` on any such token and for the full
constructor on `"foo"`. -/
theorem mineralMechanism_out_of_bounds :
    (∀ (mm : MineralMechanism) (opt w : String), isCatalystToken opt = false →
      split opt "= " = [w] →
      parseOption mm opt = Except.error (MechanismError.outOfBoundsAccess opt))
    ∧ parseMechanism "foo" = Except.error (MechanismError.outOfBoundsAccess "foo") := by
  constructor
  · intro mm opt w hcat hsplit
    simp [parseOption, hcat, hsplit]
  · decide

/-- Witness for C10: the single-word token `"foo"` hits the
out-of-bounds read inside `parseOption`. -/
theorem mineralMechanism_out_of_bounds_witness :
    parseOption {} "foo" = Except.error (MechanismError.outOfBoundsAccess "foo") :=
  mineralMechanism_out_of_bounds.1 {} "foo" "foo" (by decide) (by decide)

/-- C7: `indexSpecies` returns the position of the species when present
and the species count as a sentinel otherwise; `containsSpecies` is true
exactly when the index is strictly below the count; `stoichiometry`
returns the coefficient at the found position when the species
participates and `0.0` otherwise. -/
theorem reaction_lookup_sentinel (r : Reaction) (s : String) :
    (s ∈ r.species → indexSpecies r s < numSpeciesReaction r ∧
      r.species.getD (indexSpecies r s) "" = s) ∧
    (s ∉ r.species → indexSpecies r s = numSpeciesReaction r) ∧
    (containsSpecies r s = true ↔ indexSpecies r s < numSpeciesReaction r) ∧
    (s ∈ r.species → stoichiometry r s = r.stoichiometries.getD (indexSpecies r s) 0) ∧
    (s ∉ r.species → stoichiometry r s = 0) := by
  refine ⟨?_, ?_, ?_, ?_, ?_⟩
  · intro h
    exact findIdx_beq_of_mem s r.species h
  · intro h
    exact findIdx_beq_of_not_mem s r.species h
  · simp [containsSpecies]
  · intro h
    have h1 := (findIdx_beq_of_mem s r.species h).1
    simp only [stoichiometry, indexSpecies, numSpeciesReaction]
    rw [if_pos h1]
  · intro h
    have h1 := findIdx_beq_of_not_mem s r.species h
    simp only [stoichiometry, indexSpecies, numSpeciesReaction]
    rw [h1, if_neg (lt_irrefl _)]

/-- Witness for C7: on the reaction with species A, B the present
species B is found below the count, and the absent species Z yields the
sentinel index and zero stoichiometry. -/
theorem reaction_lookup_sentinel_witness :
    (indexSpecies rxnAB "B" < numSpeciesReaction rxnAB ∧
      rxnAB.species.getD (indexSpecies rxnAB "B") "" = "B")
    ∧ indexSpecies rxnAB "Z" = numSpeciesReaction rxnAB
    ∧ stoichiometry rxnAB "Z" = 0 :=
  ⟨(reaction_lookup_sentinel rxnAB "B").1 (by decide),
   (reaction_lookup_sentinel rxnAB "Z").2.1 (by decide),
   (reaction_lookup_sentinel rxnAB "Z").2.2.2.2 (by decide)⟩

/-- C2: the value of `reactionQuotient` is the product, over the
participating species only, of the activities raised to the
stoichiometric coefficients, and every component of its gradient is the
value times the sum, over the participating species only, of
(νᵢ/aᵢ)·(row i of the activity Jacobian); in particular for
stoichiometry A: -1, B: -1, C: +1 and activities A: 2, B: 3, C: 1 the
value is 1/6 and the gradient with respect to the amount behind A is
−(1/6)/2. -/
theorem reactionQuotient_spec :
    (∀ (r : Reaction) (a : VectorResult),
      (∀ row ∈ a.grad, row.length = a.val.length) → ∀ j, j < a.val.length →
      (reactionQuotient r a).val =
        ((List.range (numSpeciesReaction r)).map
          (fun i => qpow (a.val.getD (r.indices.getD i 0) 0)
            (r.stoichiometries.getD i 0))).prod
      ∧ (reactionQuotient r a).grad.getD j 0 =
        (reactionQuotient r a).val *
          ((List.range (numSpeciesReaction r)).map
            (fun i => r.stoichiometries.getD i 0 / a.val.getD (r.indices.getD i 0) 0 *
              (a.grad.getD (r.indices.getD i 0) (vecZeros a.val.length)).getD j 0)).sum)
    ∧ (reactionQuotient rxnABC actABC).val = 1/6
    ∧ (reactionQuotient rxnABC actABC).grad.getD 0 0 = -(1/6)/2 := by
  refine ⟨?_, ?_, ?_⟩
  · intro r a hrows j hj
    constructor
    · show (List.range (numSpeciesReaction r)).foldl _ 1 = _
      rw [foldl_mul_eq_prod, one_mul]
    · show ((List.range (numSpeciesReaction r)).foldl _ (vecZeros a.val.length)).getD j 0 = _
      rw [foldl_vecAdd_getD _ _ a.val.length j hj _ _ (by simp [vecZeros])
        (fun i _ => getD_row_length a.grad a.val.length (r.indices.getD i 0) hrows)]
      rw [vecZeros_getD, zero_add]
      show ((List.range (numSpeciesReaction r)).map
          (fun i => (reactionQuotient r a).val * r.stoichiometries.getD i 0 /
            a.val.getD (r.indices.getD i 0) 0 *
            (a.grad.getD (r.indices.getD i 0) (vecZeros a.val.length)).getD j 0)).sum = _
      have hfun : (fun i => (reactionQuotient r a).val * r.stoichiometries.getD i 0 /
            a.val.getD (r.indices.getD i 0) 0 *
            (a.grad.getD (r.indices.getD i 0) (vecZeros a.val.length)).getD j 0) =
          (fun i => (reactionQuotient r a).val * (r.stoichiometries.getD i 0 /
            a.val.getD (r.indices.getD i 0) 0 *
            (a.grad.getD (r.indices.getD i 0) (vecZeros a.val.length)).getD j 0)) := by
        funext i
        rw [mul_div_assoc, mul_assoc]
      rw [hfun, List.sum_map_mul_left]
  · have q1 : qpow 2 (-1) = 1/2 := by norm_num [qpow, qnpow]
    have q2 : qpow 3 (-1) = 1/3 := by norm_num [qpow, qnpow]
    have q3 : qpow 1 1 = 1 := by norm_num [qpow, qnpow]
    simp [reactionQuotient, rxnABC, actABC, numSpeciesReaction,
      show List.range 3 = [0, 1, 2] from by decide, List.getD, q1, q2, q3]
    norm_num
  · have q1 : qpow 2 (-1) = 1/2 := by norm_num [qpow, qnpow]
    have q2 : qpow 3 (-1) = 1/3 := by norm_num [qpow, qnpow]
    have q3 : qpow 1 1 = 1 := by norm_num [qpow, qnpow]
    simp [reactionQuotient, rxnABC, actABC, numSpeciesReaction,
      show List.range 3 = [0, 1, 2] from by decide, List.getD, q1, q2, q3,
      vecZeros, vecAdd, vecScale]
    norm_num

/-- Witness for C2: the universal part applied to the concrete reaction
of the spec example at gradient component 0. -/
theorem reactionQuotient_spec_witness :
    (reactionQuotient rxnABC actABC).val =
      ((List.range (numSpeciesReaction rxnABC)).map
        (fun i => qpow (actABC.val.getD (rxnABC.indices.getD i 0) 0)
          (rxnABC.stoichiometries.getD i 0))).prod
    ∧ (reactionQuotient rxnABC actABC).grad.getD 0 0 =
      (reactionQuotient rxnABC actABC).val *
        ((List.range (numSpeciesReaction rxnABC)).map
          (fun i => rxnABC.stoichiometries.getD i 0 /
            actABC.val.getD (rxnABC.indices.getD i 0) 0 *
            (actABC.grad.getD (rxnABC.indices.getD i 0)
              (vecZeros actABC.val.length)).getD 0 0)).sum :=
  reactionQuotient_spec.1 rxnABC actABC (by decide) 0 (by decide)

/-- C5: for any temperature with `T ≠ 0`, pressure, system and reaction
whose index list covers its participating species, the closure returned
by `equilibriumConstant` evaluates to
`exp(−(Σ νᵢ μᵢ(T,P))/(R·T))` with the chemical potentials `μᵢ` of the
participating species taken from the system — the formula written from
the spec's words as `equilibriumConstantSpec`. -/
theorem equilibriumConstant_matches_spec (expF : ℚ → ℚ) (mp : Multiphase) (r : Reaction)
    (T P : ℚ) (_hT : T ≠ 0) (hlen : numSpeciesReaction r ≤ r.indices.length) :
    equilibriumConstant expF mp r T P = equilibriumConstantSpec expF mp r T P := by
  simp only [equilibriumConstant, equilibriumConstantSpec]
  apply congrArg
  have hmap : (List.range (numSpeciesReaction r)).map
      (fun i => r.stoichiometries.getD i 0 *
        ((r.indices.map (fun k => (mp.species.getD k speciesZero).chemicalPotential)).getD
          i muZero) T P) =
    (List.range (numSpeciesReaction r)).map
      (fun i => r.stoichiometries.getD i 0 *
        (mp.species.getD (r.indices.getD i 0) speciesZero).chemicalPotential T P) := by
    apply List.map_congr_left
    intro i hi
    have hi2 : i < r.indices.length := lt_of_lt_of_le (List.mem_range.mp hi) hlen
    rw [getD_map_fn _ _ _ hi2 muZero 0]
  rw [hmap]

/-- Witness for C5: the closure and the spec formula agree on a concrete
two-species system at `T = 2`, `P = 3` with the identity as the
exponential stand-in. -/
theorem equilibriumConstant_matches_spec_witness :
    equilibriumConstant expId mpW rxnW 2 3 = equilibriumConstantSpec expId mpW rxnW 2 3 :=
  equilibriumConstant_matches_spec expId mpW rxnW 2 3 (by norm_num) (by decide)

end Reaktor

namespace Reaktoro

/-! ## Claim theorems for `WaterThermoStateUtils.cpp` and `AqueousMixture.hpp` -/

/-- C3: `waterThermoState` computes `pressureD = 2·D·A_D + D²·A_DD` and
`pressureT = D²·A_TD` from the Helmholtz derivatives and sets
`densityT = −pressureT/pressureD` and `densityP = 1/pressureD`. -/
theorem waterThermoState_density_derivatives (T P D : ℚ) (wh : WaterHelmholtzState) :
    (waterThermoState T P D wh).pressureD = 2*D*wh.helmholtzD + D*D*wh.helmholtzDD ∧
    (waterThermoState T P D wh).pressureT = D*D*wh.helmholtzTD ∧
    (waterThermoState T P D wh).densityT =
      -(waterThermoState T P D wh).pressureT / (waterThermoState T P D wh).pressureD ∧
    (waterThermoState T P D wh).densityP = 1 / (waterThermoState T P D wh).pressureD :=
  ⟨rfl, rfl, rfl, rfl⟩

/-- C4: `waterThermoState` sets the isochoric heat capacity to
`cv = −T·A_TT` and the isobaric one to
`cp = cv + T/(D²)·pressureT²/pressureD`. -/
theorem waterThermoState_heat_capacities (T P D : ℚ) (wh : WaterHelmholtzState) :
    (waterThermoState T P D wh).cv = -T * wh.helmholtzTT ∧
    (waterThermoState T P D wh).cp = (waterThermoState T P D wh).cv +
      T/(D*D) * (waterThermoState T P D wh).pressureT^2 /
        (waterThermoState T P D wh).pressureD := by
  refine ⟨rfl, ?_⟩
  simp only [waterThermoState]
  ring


/-- The two complementary filters of a list split its length. -/
theorem length_filter_not {α : Type} (p : α → Bool) :
    ∀ l : List α, (l.filter p).length + (l.filter (fun x => !p x)).length = l.length := by
  intro l
  induction l with
  | nil => rfl
  | cons a t ih =>
    cases hpa : p a
    · simp [List.filter_cons, hpa]
      omega
    · simp [List.filter_cons, hpa]
      omega

/-- A filter by a disjunction of mutually exclusive tests splits into
the two individual filters. -/
theorem length_filter_split {α : Type} (p q r : α → Bool)
    (hr : ∀ x, r x = (p x || q x)) (hx : ∀ x, ¬(p x = true ∧ q x = true)) :
    ∀ l : List α, (l.filter r).length = (l.filter p).length + (l.filter q).length := by
  intro l
  induction l with
  | nil => rfl
  | cons a t ih =>
    cases hpa : p a <;> cases hqa : q a
    · simp [List.filter_cons, hr a, hpa, hqa]
      omega
    · simp [List.filter_cons, hr a, hpa, hqa]
      omega
    · simp [List.filter_cons, hr a, hpa, hqa]
      omega
    · exact absurd ⟨hpa, hqa⟩ (hx a)

/-- C8: for every constructed aqueous mixture the neutral and charged
index sets partition the species
(`numNeutralSpecies + numChargedSpecies = total`) and the cation and
anion index sets partition the charged species
(`numChargedSpecies = numCations + numAnions`). -/
theorem aqueousMixture_partition (species : List AqueousSpecies) :
    numNeutralSpecies (mkAqueousMixture species) + numChargedSpecies (mkAqueousMixture species) =
      species.length
    ∧ numChargedSpecies (mkAqueousMixture species) =
      numCations (mkAqueousMixture species) + numAnions (mkAqueousMixture species) := by
  constructor
  · have hfun : (fun i => decide ((species.getD i aqueousSpeciesZero).charge ≠ 0)) =
        (fun i => !(decide ((species.getD i aqueousSpeciesZero).charge = 0))) := by
      funext i
      simp [decide_not]
    have h := length_filter_not
      (fun i => decide ((species.getD i aqueousSpeciesZero).charge = 0))
      (List.range species.length)
    simp only [mkAqueousMixture, numNeutralSpecies, numChargedSpecies]
    rw [hfun]
    simpa using h
  · have hr : ∀ i : ℕ, (decide ((species.getD i aqueousSpeciesZero).charge ≠ 0)) =
        ((decide (0 < (species.getD i aqueousSpeciesZero).charge)) ||
         (decide ((species.getD i aqueousSpeciesZero).charge < 0))) := by
      intro i
      generalize (species.getD i aqueousSpeciesZero).charge = c
      by_cases h0 : c = 0
      · simp [h0]
      · rcases Ne.lt_or_lt h0 with h | h
        · simp [h0, h, asymm h]
        · simp [h0, h, asymm h]
    have hx : ∀ i : ℕ, ¬((decide (0 < (species.getD i aqueousSpeciesZero).charge)) = true ∧
        (decide ((species.getD i aqueousSpeciesZero).charge < 0)) = true) := by
      intro i hcon
      rcases hcon with ⟨h1, h2⟩
      rw [decide_eq_true_eq] at h1 h2
      exact absurd (h1.trans h2) (lt_irrefl 0)
    simp only [mkAqueousMixture, numChargedSpecies, numCations, numAnions]
    exact length_filter_split _ _ _ hr hx (List.range species.length)

/-- C9: `AqueousMixture::state(T, P, n)` is deterministic: two calls
with equal temperature, pressure and amounts on the same mixture return
equal states (molalities, stoichiometric molalities, both ionic
strengths and all their derivatives). -/
theorem aqueousMixture_state_deterministic (mix : AqueousMixture) (T P T2 P2 : ℚ)
    (n n2 : List ℚ) (hT : T = T2) (hP : P = P2) (hn : n = n2) :
    state mix T P n = state mix T2 P2 n2 := by
  subst hT
  subst hP
  subst hn
  rfl

/-- Witness for C9: two calls on the concrete mixture with identical
inputs agree. -/
theorem aqueousMixture_state_deterministic_witness :
    state mixW 298 100000 [1, 2, 3] = state mixW 298 100000 [1, 2, 3] :=
  aqueousMixture_state_deterministic mixW 298 100000 298 100000 [1, 2, 3] [1, 2, 3]
    rfl rfl rfl

end Reaktoro
